import Mathlib

/-!
Verification of the Fetchdata option-pricing core (`src/app2.py`).

The embedding models:
* the trading-calendar engine (`count_trading_days_between`,
  `calculate_time_to_expiry`),
* the implied-volatility resolver (`get_nearest_iv` and the inline
  resolution logic of `fetch_and_calculate`),
* the step-schedule selector (`determine_n_steps`),
* the trinomial lattice pricer (`trinomial_single_step`,
  `trinomial_tree_price`),
* the orchestration loop of `fetch_and_calculate`.

Python floats are modelled as real numbers (`ℝ`) where transcendental
functions occur and as rationals (`ℚ`) elsewhere; Python `datetime.date`
values are modelled as proleptic-Gregorian calendar triples, with
`strptime` parse outcomes modelled as `Option Date` (a `ValueError`
is `none`).
-/

namespace Fetchdata

/-- A calendar date, as Python's `datetime.date` (proleptic Gregorian).
A parsed `"%d-%b-%Y"` string yields such a triple. -/
structure Date where
  year : ℕ
  month : ℕ
  day : ℕ
deriving DecidableEq

/-- Gregorian leap-year test, as Python `calendar.isleap`. -/
def isLeap (y : ℕ) : Prop := (y % 4 = 0 ∧ y % 100 ≠ 0) ∨ y % 400 = 0

instance (y : ℕ) : Decidable (isLeap y) := by unfold isLeap; infer_instance

/-- Number of days of month `m` (1–12) in year `y`. -/
def daysInMonth (y m : ℕ) : ℕ :=
  if m = 1 then 31
  else if m = 2 then (if isLeap y then 29 else 28)
  else if m = 3 then 31
  else if m = 4 then 30
  else if m = 5 then 31
  else if m = 6 then 30
  else if m = 7 then 31
  else if m = 8 then 31
  else if m = 9 then 30
  else if m = 10 then 31
  else if m = 11 then 30
  else 31

/-- Days in year `y` strictly before month `m`. -/
def daysBeforeMonth (y m : ℕ) : ℕ :=
  ((List.range (m - 1)).map (fun k => daysInMonth y (k + 1))).sum

/-- Days strictly before January 1 of year `y` in the proleptic Gregorian
calendar (day 1 = 0001-01-01). -/
def daysBeforeYear (y : ℕ) : ℕ :=
  365 * (y - 1) + (y - 1) / 4 - (y - 1) / 100 + (y - 1) / 400

/-- Python's `date.toordinal`: 0001-01-01 has ordinal 1. -/
def toOrdinal (d : Date) : ℕ :=
  daysBeforeYear d.year + daysBeforeMonth d.year d.month + d.day

/-- Python's `date.weekday`: Monday = 0 … Sunday = 6
(0001-01-01 is a Monday). -/
def weekday (d : Date) : ℕ := (toOrdinal d + 6) % 7

/-- Python's `date + timedelta(days=1)` on a valid date. -/
def nextDay (d : Date) : Date :=
  if d.day < daysInMonth d.year d.month then ⟨d.year, d.month, d.day + 1⟩
  else if d.month < 12 then ⟨d.year, d.month + 1, 1⟩
  else ⟨d.year + 1, 1, 1⟩

/-- Python's `<=` on `datetime.date`: lexicographic on (year, month, day). -/
def dateLE (a b : Date) : Prop :=
  a.year < b.year ∨ (a.year = b.year ∧
    (a.month < b.month ∨ (a.month = b.month ∧ a.day ≤ b.day)))

instance (a b : Date) : Decidable (dateLE a b) := by unfold dateLE; infer_instance

/-- Python's `<` on `datetime.date`: lexicographic on (year, month, day). -/
def dateLT (a b : Date) : Prop :=
  a.year < b.year ∨ (a.year = b.year ∧
    (a.month < b.month ∨ (a.month = b.month ∧ a.day < b.day)))

instance (a b : Date) : Decidable (dateLT a b) := by unfold dateLT; infer_instance

lemma not_dateLE_iff_dateLT (a b : Date) : ¬ dateLE a b ↔ dateLT b a := by
  unfold dateLE dateLT
  omega

/-- The holiday list `HOLIDAYS_2025` of the source, each entry the parse
outcome of the corresponding `"%d-%b-%Y"` string (all parse successfully). -/
def HOLIDAYS_2025 : List (Option Date) :=
  [some ⟨2025, 2, 26⟩, some ⟨2025, 3, 14⟩, some ⟨2025, 3, 31⟩,
   some ⟨2025, 4, 10⟩, some ⟨2025, 4, 14⟩, some ⟨2025, 4, 18⟩,
   some ⟨2025, 5, 1⟩, some ⟨2025, 8, 15⟩, some ⟨2025, 8, 27⟩,
   some ⟨2025, 10, 2⟩, some ⟨2025, 10, 21⟩, some ⟨2025, 10, 22⟩,
   some ⟨2025, 11, 5⟩, some ⟨2025, 12, 25⟩]

/-- `TOTAL_TRADING_DAYS_2025 = 247` of the source. -/
def TOTAL_TRADING_DAYS_2025 : ℤ := 247

/-- The `while curr_date <= end_date` loop of `count_trading_days_between`:
counts a day when its weekday is Monday–Friday and it is not a holiday,
then advances by one day.  `fuel` bounds the iteration count; the wrapper
supplies one unit per calendar day of `[curr, endD]`. -/
def countTradingLoop (fuel : ℕ) (curr endD : Date) (hols : List Date) : ℕ :=
  match fuel with
  | 0 => 0
  | f + 1 =>
    if dateLE curr endD then
      (if weekday curr < 5 ∧ curr ∉ hols then 1 else 0) +
        countTradingLoop f (nextDay curr) endD hols
    else 0

/-- `count_trading_days_between(start_str, end_str)` of the source, the two
string arguments replaced by their `strptime` parse outcomes and the global
holiday list made a parameter (each entry itself a parse outcome; the source
skips entries whose parse raises `ValueError`).  Returns 0 on a parse
failure or when `start > end`. -/
def count_trading_days_between (startP endP : Option Date)
    (holidays : List (Option Date)) : ℕ :=
  match startP, endP with
  | some s, some e =>
    if dateLT e s then 0
    else countTradingLoop (toOrdinal e + 1 - toOrdinal s) s e (holidays.filterMap id)
  | _, _ => 0

/-- The inclusive calendar range `[s, e]`, enumerated day by day exactly as
the counting loop walks it. -/
def dateRangeLoop (fuel : ℕ) (curr endD : Date) : List Date :=
  match fuel with
  | 0 => []
  | f + 1 =>
    if dateLE curr endD then curr :: dateRangeLoop f (nextDay curr) endD
    else []

/-- The days of the inclusive range `[s, e]`. -/
def datesBetween (s e : Date) : List Date :=
  dateRangeLoop (toOrdinal e + 1 - toOrdinal s) s e

lemma countTradingLoop_eq_filter (fuel : ℕ) (curr endD : Date)
    (hols : List Date) :
    countTradingLoop fuel curr endD hols =
      ((dateRangeLoop fuel curr endD).filter
        (fun d => decide (weekday d < 5 ∧ d ∉ hols))).length := by
  induction fuel generalizing curr with
  | zero => rfl
  | succ f ih =>
    rw [countTradingLoop, dateRangeLoop]
    by_cases hle : dateLE curr endD
    · rw [if_pos hle, if_pos hle]
      by_cases hd : weekday curr < 5 ∧ curr ∉ hols
      · rw [if_pos hd, List.filter_cons_of_pos (by simpa using hd),
          List.length_cons, ih]
        omega
      · rw [if_neg hd, List.filter_cons_of_neg (by simpa using hd), ih]
        omega
    · rw [if_neg hle, if_neg hle]
      rfl

/-- `calculate_time_to_expiry(expiry_str)` of the source.  The expiry string
argument is replaced by its `strptime` parse outcome, today's date (the
source reads `datetime.today()`) is an explicit argument, and the globals
`TOTAL_TRADING_DAYS_2025` and `HOLIDAYS_2025` are parameters.  Returns the
triple `(T, fraction_str, days_left)`. -/
def calculate_time_to_expiry (total : ℤ) (holidays : List (Option Date))
    (today : Date) (expiryP : Option Date) : ℚ × String × ℕ :=
  match expiryP with
  | none => (0, "0/0", 0)
  | some e =>
    if e.year ≠ 2025 then (0, "0/0", 0)
    else
      let daysLeft := count_trading_days_between (some today) (some e) holidays
      let fracStr := toString daysLeft ++ "/" ++ toString total
      if total ≤ 0 then (0, fracStr, daysLeft)
      else ((daysLeft : ℚ) / (total : ℚ), fracStr, daysLeft)

/-- Option side: the `"CE"` (call) / `"PE"` (put) keys of a contract. -/
inductive OptionSide where
  | CE : OptionSide
  | PE : OptionSide
deriving DecidableEq

/-- Outcome of reading and `float`-parsing an `impliedVolatility` field:
the field may be absent, present but not parseable as a float
(`ValueError/TypeError`), or a number (a percentage). -/
inductive IVQuote where
  | absent : IVQuote
  | unparsable : IVQuote
  | val : ℚ → IVQuote
deriving DecidableEq

/-- Per-side data of a contract record: the quoted implied volatility and
the `underlyingValue` spot. -/
structure OptSideData where
  impliedVolatility : IVQuote
  underlyingValue : ℚ
deriving DecidableEq

/-- A contract record of the option chain: expiry parse outcome, strike,
and the optional `"CE"` / `"PE"` per-side objects. -/
structure Contract where
  expiryDate : Option Date
  strikePrice : ℚ
  ce : Option OptSideData
  pe : Option OptSideData
deriving DecidableEq

/-- The per-side object of a contract for a given option side
(`option_type in c` is `none`-ness here). -/
def sideData (c : Contract) : OptionSide → Option OptSideData
  | OptionSide.CE => c.ce
  | OptionSide.PE => c.pe

/-- Insert `x` into `l` before the first element whose key is strictly
greater; keeps elements of equal key in their existing order. -/
def insertByDist (key : Contract → ℚ) (x : Contract) :
    List Contract → List Contract
  | [] => [x]
  | y :: ys =>
    if key x < key y then x :: y :: ys else y :: insertByDist key x ys

/-- Stable ascending sort by `key`, as Python's `sorted(..., key=...)`:
elements are taken left to right and each lands after all earlier elements
of less-than-or-equal key. -/
def sortByDist (key : Contract → ℚ) (l : List Contract) : List Contract :=
  l.foldl (fun acc x => insertByDist key x acc) []

/-- The scan of `get_nearest_iv` over the distance-sorted chain: the first
contract carrying the requested side, with an `impliedVolatility` field
that parses to a value `> 0`, yields `(iv / 100, strike)`; parse failures
and non-positive values are skipped (`continue`). -/
def nearestIVScan (side : OptionSide) : List Contract → Option ℚ × Option ℚ
  | [] => (none, none)
  | c :: rest =>
    match sideData c side with
    | some od =>
      match od.impliedVolatility with
      | IVQuote.val q =>
        if 0 < q then (some (q / 100), some c.strikePrice)
        else nearestIVScan side rest
      | _ => nearestIVScan side rest
    | none => nearestIVScan side rest

/-- `get_nearest_iv(strike_price, option_chain, option_type)` of the
source: sort the chain by absolute strike distance to the target (Python's
`sorted` is stable) and return the first usable quoted IV as a decimal,
with its strike; `(None, None)` when no contract qualifies. -/
def get_nearest_iv (strikePrice : ℚ) (optionChain : List Contract)
    (side : OptionSide) : Option ℚ × Option ℚ :=
  nearestIVScan side
    (sortByDist (fun c => |c.strikePrice - strikePrice|) optionChain)

/-- Provenance label of a resolved implied volatility. -/
inductive IVStatus where
  | REAL : IVStatus
  | FAKE : IVStatus
deriving DecidableEq

/-- The read of `opt_data.get("impliedVolatility", 0)` followed by
`float(...)` under `try/except` in `fetch_and_calculate`: an absent field
defaults to 0 and a parse failure is replaced by 0.0. -/
def parse_iv_field : IVQuote → ℚ
  | IVQuote.absent => 0
  | IVQuote.unparsable => 0
  | IVQuote.val q => q

/-- The IV-resolution block of `fetch_and_calculate` (steps around
`used_iv_status`): start from the parsed quoted value with status `REAL`;
when it is `<= 0`, look up the nearest sibling IV and, only when one is
found, replace the value by `nearest_iv * 100` and the status by `FAKE`.
Returns the final `(iv_raw, used_iv_status)` pair. -/
def resolve_iv (quoted : IVQuote) (strikePrice : ℚ)
    (chainData : List Contract) (side : OptionSide) : ℚ × IVStatus :=
  let ivRaw := parse_iv_field quoted
  if ivRaw ≤ 0 then
    match (get_nearest_iv strikePrice chainData side).1 with
    | some nearestIV => (nearestIV * 100, IVStatus.FAKE)
    | none => (ivRaw, IVStatus.REAL)
  else (ivRaw, IVStatus.REAL)

/-- `iv_decimal = iv_raw / 100.0 if iv_raw > 0 else 0.01` of the source. -/
def iv_decimal_of (ivRaw : ℚ) : ℚ :=
  if 0 < ivRaw then ivRaw / 100 else 1 / 100

/-- `determine_n_steps(IV, T, is_index, is_atm)` of the source. -/
def determine_n_steps (IV T : ℚ) (isIndex isAtm : Bool) : List ℕ :=
  if 0.4 < IV then [10, 20, 50, 100, 200, 400]
  else if 0.2 < IV then [10, 20, 50, 100, 200]
  else if 0.1 < IV then [4, 10, 20, 40, 100]
  else if T < 0.05 then [4, 10, 20, 40, 50]
  else if isIndex ∧ isAtm then [10, 20, 50, 100, 200]
  else [4, 10, 20, 40]

/-- `MANUAL_RISK_FREE_RATE = 0.06509` of the source. -/
def MANUAL_RISK_FREE_RATE : ℚ := 6509 / 100000

/-- `MANUAL_DIVIDEND_YIELD = 0.0` of the source. -/
def MANUAL_DIVIDEND_YIELD : ℚ := 0

/-- `dt = T / n if n else 0` of `trinomial_single_step`. -/
noncomputable def step_dt (T : ℝ) (n : ℕ) : ℝ :=
  if n = 0 then 0 else T / n

/-- The up factor `u = exp(sigma * sqrt(2.0 * dt))`. -/
noncomputable def lattice_u (sigma dt : ℝ) : ℝ :=
  Real.exp (sigma * Real.sqrt (2 * dt))

/-- The down factor `d = 1.0 / u`. -/
noncomputable def lattice_d (sigma dt : ℝ) : ℝ :=
  1 / lattice_u sigma dt

/-- Terminal payoff at a node: `max(0, price - K)` for a call (`"CE"`),
`max(0, K - price)` for a put (`"PE"`). -/
noncomputable def optionPayoff (side : OptionSide) (price K : ℝ) : ℝ :=
  match side with
  | OptionSide.CE => max 0 (price - K)
  | OptionSide.PE => max 0 (K - price)

/-- One record returned by `trinomial_single_step`. -/
structure StepResult where
  n : ℕ
  dt : ℝ
  u : ℝ
  d : ℝ
  m : ℝ
  p_u : ℝ
  p_m : ℝ
  p_d : ℝ
  discount_factor : ℝ
  price_up : ℝ
  price_mid : ℝ
  price_down : ℝ
  payoff_up : ℝ
  payoff_mid : ℝ
  payoff_down : ℝ
  option_value_at_root : ℝ

/-- `trinomial_single_step(S, K, r, sigma, T, q, n, option_type)` of the
source: degenerate all-zero record when `dt <= 0`; otherwise the one-period
trinomial valuation with the equal-thirds fallback when `|u - d| < 1e-14`. -/
noncomputable def trinomial_single_step (S K r sigma T q : ℝ) (n : ℕ)
    (side : OptionSide) : StepResult :=
  let dt := step_dt T n
  if dt ≤ 0 then
    ⟨n, 0, 1, 1, 1, 0, 0, 0, 1, S, S, S, 0, 0, 0, 0⟩
  else
    let u := lattice_u sigma dt
    let d := lattice_d sigma dt
    let m : ℝ := 1
    let exp_rq := Real.exp ((r - q) * dt)
    let numerator := exp_rq - d
    let denominator := u - d
    let probs : ℝ × ℝ × ℝ :=
      if |denominator| < 1 / 10 ^ 14 then (1 / 3, 1 / 3, 1 / 3)
      else
        let frac := numerator / denominator
        let pu := 0.5 * frac ^ 2
        let pm := 1 - frac ^ 2
        (pu, pm, 1 - pu - pm)
    let p_u := probs.1
    let p_m := probs.2.1
    let p_d := probs.2.2
    let discount_factor := Real.exp (-r * dt)
    let price_up := S * u
    let price_mid := S * m
    let price_down := S * d
    let payoff_up := optionPayoff side price_up K
    let payoff_mid := optionPayoff side price_mid K
    let payoff_down := optionPayoff side price_down K
    ⟨n, dt, u, d, m, p_u, p_m, p_d, discount_factor,
      price_up, price_mid, price_down, payoff_up, payoff_mid, payoff_down,
      discount_factor * (p_u * payoff_up + p_m * payoff_mid + p_d * payoff_down)⟩

/-- `trinomial_tree_price(S, K, r, sigma, T, q, n_values, option_type)` of
the source: floor `sigma` at 0.01 when non-positive, then one
`trinomial_single_step` per requested step count. -/
noncomputable def trinomial_tree_price (S K r sigma T q : ℝ)
    (nValues : List ℕ) (side : OptionSide) : List StepResult :=
  let sigma2 := if sigma ≤ 0 then (0.01 : ℝ) else sigma
  nValues.map (fun n => trinomial_single_step S K r sigma2 T q n side)

/-- One output record of `fetch_and_calculate` (presentation-string
formatting such as `f"{T:.6f}"` is kept as the underlying values). -/
structure ContractOutput where
  option_type : OptionSide
  T : ℚ
  fraction_str : String
  raw_days_to_expiry : ℕ
  days_to_expiry : ℕ
  K : ℚ
  S : ℚ
  iv_raw : ℚ
  iv_decimal : ℚ
  used_iv_status : IVStatus
  r : ℚ
  q : ℚ
  pricing_steps : List StepResult

/-- The body of `fetch_and_calculate` for one contract and one present
option side: resolve T, the raw calendar-day count, the implied
volatility with provenance, the step schedule, and the per-step
trinomial valuations. -/
noncomputable def processSide (today : Date) (chainData : List Contract)
    (c : Contract) (side : OptionSide) (od : OptSideData) : ContractOutput :=
  let S := od.underlyingValue
  let tte := calculate_time_to_expiry TOTAL_TRADING_DAYS_2025 HOLIDAYS_2025
    today c.expiryDate
  let T := tte.1
  let fracStr := tte.2.1
  let daysLeft := tte.2.2
  let rawDaysLeft : ℕ :=
    match c.expiryDate with
    | some e => ((toOrdinal e : ℤ) - (toOrdinal today : ℤ)).toNat
    | none => 0
  let resolved := resolve_iv od.impliedVolatility c.strikePrice chainData side
  let ivRaw := resolved.1
  let status := resolved.2
  let ivDecimal := iv_decimal_of ivRaw
  let nList := determine_n_steps ivDecimal T true true
  let steps := trinomial_tree_price (S : ℝ) (c.strikePrice : ℝ)
    (MANUAL_RISK_FREE_RATE : ℝ) (ivDecimal : ℝ) (T : ℝ)
    (MANUAL_DIVIDEND_YIELD : ℝ) nList side
  ⟨side, T, fracStr, rawDaysLeft, daysLeft, c.strikePrice, S,
    ivRaw, ivDecimal, status, MANUAL_RISK_FREE_RATE, MANUAL_DIVIDEND_YIELD,
    steps⟩

/-- The outputs contributed by one contract: one per present side
(`"CE"` first, then `"PE"`; an absent side is skipped by `continue`).
`chainData` is the full fetched chain, used by the nearest-IV search. -/
noncomputable def contractOutputs (today : Date) (chainData : List Contract)
    (c : Contract) : List ContractOutput :=
  (match c.ce with
   | some od => [processSide today chainData c OptionSide.CE od]
   | none => []) ++
  (match c.pe with
   | some od => [processSide today chainData c OptionSide.PE od]
   | none => [])

/-- The `for contract in chain_data` loop, carrying the full chain for the
nearest-IV search. -/
noncomputable def fetchLoop (today : Date) (chainData : List Contract) :
    List Contract → List ContractOutput
  | [] => []
  | c :: rest =>
    contractOutputs today chainData c ++ fetchLoop today chainData rest

/-- The orchestration of `fetch_and_calculate`: iterate all contracts of
the fetched chain and collect, per contract, one output per present
option side. -/
noncomputable def fetch_and_calculate (today : Date)
    (chainData : List Contract) : List ContractOutput :=
  fetchLoop today chainData chainData

/-! ## Lattice pricer theorems -/

lemma trinomial_step_degenerate (S K r sigma T q : ℝ) (n : ℕ)
    (side : OptionSide) (h : step_dt T n ≤ 0) :
    trinomial_single_step S K r sigma T q n side =
      ⟨n, 0, 1, 1, 1, 0, 0, 0, 1, S, S, S, 0, 0, 0, 0⟩ := by
  simp only [trinomial_single_step]
  rw [if_pos h]

/-- Claim C1 fails as stated: at zero time-to-expiry the pricer takes the
`dt <= 0` degenerate branch, whose record has `p_u = p_m = p_d = 0`; the
probabilities sum to 0, not to 1 within `1e-9`. -/
theorem C1_counterexample :
    (trinomial_single_step 100 50 (6509 / 100000) (1 / 5) 0 0 10
      OptionSide.CE).p_u +
    (trinomial_single_step 100 50 (6509 / 100000) (1 / 5) 0 0 10
      OptionSide.CE).p_m +
    (trinomial_single_step 100 50 (6509 / 100000) (1 / 5) 0 0 10
      OptionSide.CE).p_d = 0 ∧
    ¬ |(trinomial_single_step 100 50 (6509 / 100000) (1 / 5) 0 0 10
          OptionSide.CE).p_u +
       (trinomial_single_step 100 50 (6509 / 100000) (1 / 5) 0 0 10
          OptionSide.CE).p_m +
       (trinomial_single_step 100 50 (6509 / 100000) (1 / 5) 0 0 10
          OptionSide.CE).p_d - 1| ≤ 1 / 10 ^ 9 := by
  have h := trinomial_step_degenerate 100 50 (6509 / 100000) (1 / 5) 0 0 10
    OptionSide.CE (by norm_num [step_dt])
  rw [h]
  norm_num

/-- Claim C1 (amended): whenever `dt > 0` the three probabilities returned
by `trinomial_single_step` sum to exactly 1, in both the equal-thirds
fallback and the standard branch; in the `dt <= 0` degenerate branch all
three probabilities are 0 and their sum is 0, not 1. -/
theorem C1_amended_prob_sum (S K r sigma T q : ℝ) (n : ℕ)
    (side : OptionSide) (h : 0 < step_dt T n) :
    (trinomial_single_step S K r sigma T q n side).p_u +
    (trinomial_single_step S K r sigma T q n side).p_m +
    (trinomial_single_step S K r sigma T q n side).p_d = 1 := by
  simp only [trinomial_single_step]
  rw [if_neg (not_le.mpr h)]
  by_cases hd : |lattice_u sigma (step_dt T n) - lattice_d sigma (step_dt T n)|
      < 1 / 10 ^ 14
  · rw [if_pos hd]
    norm_num
  · rw [if_neg hd]
    dsimp only
    ring

/-- Witness for C1 (amended) at `T = 1`, `n = 1`. -/
theorem C1_amended_prob_sum_witness :
    0 < step_dt 1 1 ∧
    (trinomial_single_step 100 90 (1 / 20) (1 / 5) 1 0 1 OptionSide.CE).p_u +
    (trinomial_single_step 100 90 (1 / 20) (1 / 5) 1 0 1 OptionSide.CE).p_m +
    (trinomial_single_step 100 90 (1 / 20) (1 / 5) 1 0 1 OptionSide.CE).p_d
      = 1 :=
  ⟨by norm_num [step_dt],
   C1_amended_prob_sum 100 90 (1 / 20) (1 / 5) 1 0 1 OptionSide.CE
     (by norm_num [step_dt])⟩

/-- Claim C2: for every non-degenerate input (`dt = T/n > 0`) the root
value is `exp(-r*dt)` times the probability-weighted terminal payoffs,
where the payoffs are `max(0, price - K)` (call) / `max(0, K - price)`
(put) at node prices `S*u`, `S*1`, `S*(1/u)` with
`u = exp(sigma * sqrt(2*dt))` — a single-period evaluation regardless
of `n`. -/
theorem C2_root_value (S K r sigma T q : ℝ) (n : ℕ) (side : OptionSide)
    (h : 0 < step_dt T n) :
    (trinomial_single_step S K r sigma T q n side).option_value_at_root =
      Real.exp (-r * step_dt T n) *
        ((trinomial_single_step S K r sigma T q n side).p_u *
            optionPayoff side
              (S * Real.exp (sigma * Real.sqrt (2 * step_dt T n))) K +
         (trinomial_single_step S K r sigma T q n side).p_m *
            optionPayoff side (S * 1) K +
         (trinomial_single_step S K r sigma T q n side).p_d *
            optionPayoff side
              (S * (1 / Real.exp (sigma * Real.sqrt (2 * step_dt T n)))) K) := by
  simp only [trinomial_single_step, lattice_u, lattice_d]
  rw [if_neg (not_le.mpr h)]

/-- Witness for C2 at `T = 1`, `n = 1`. -/
theorem C2_root_value_witness :
    0 < step_dt 1 1 ∧
    (trinomial_single_step 100 90 (1 / 20) (1 / 5) 1 0 1
        OptionSide.PE).option_value_at_root =
      Real.exp (-(1 / 20) * step_dt 1 1) *
        ((trinomial_single_step 100 90 (1 / 20) (1 / 5) 1 0 1
            OptionSide.PE).p_u *
          optionPayoff OptionSide.PE
            (100 * Real.exp ((1 / 5) * Real.sqrt (2 * step_dt 1 1))) 90 +
         (trinomial_single_step 100 90 (1 / 20) (1 / 5) 1 0 1
            OptionSide.PE).p_m *
          optionPayoff OptionSide.PE (100 * 1) 90 +
         (trinomial_single_step 100 90 (1 / 20) (1 / 5) 1 0 1
            OptionSide.PE).p_d *
          optionPayoff OptionSide.PE
            (100 * (1 / Real.exp ((1 / 5) * Real.sqrt (2 * step_dt 1 1)))) 90) :=
  ⟨by norm_num [step_dt],
   C2_root_value 100 90 (1 / 20) (1 / 5) 1 0 1 OptionSide.PE
     (by norm_num [step_dt])⟩

/-- Claim C3: for every input with `dt <= 0` the pricer returns, without
raising, the fully degenerate record: `u = d = m = 1`, zero probabilities,
unit discount factor, all three terminal prices equal to the spot `S`,
zero payoffs and zero root value. -/
theorem C3_degenerate_record (S K r sigma T q : ℝ) (n : ℕ)
    (side : OptionSide) (h : step_dt T n ≤ 0) :
    trinomial_single_step S K r sigma T q n side =
      ⟨n, 0, 1, 1, 1, 0, 0, 0, 1, S, S, S, 0, 0, 0, 0⟩ :=
  trinomial_step_degenerate S K r sigma T q n side h

/-- Witness for C3 at `T = 0`, `n = 1`. -/
theorem C3_degenerate_record_witness :
    step_dt 0 1 ≤ 0 ∧
    trinomial_single_step 100 90 (1 / 20) (1 / 2) 0 0 1 OptionSide.CE =
      ⟨1, 0, 1, 1, 1, 0, 0, 0, 1, 100, 100, 100, 0, 0, 0, 0⟩ :=
  ⟨by norm_num [step_dt],
   C3_degenerate_record 100 90 (1 / 20) (1 / 2) 0 0 1 OptionSide.CE
     (by norm_num [step_dt])⟩

/-- Claim C10 (implicit): in the non-degenerate probability branch
(`dt > 0` and `|u - d| >= 1e-14`) the up and down probabilities coincide:
`p_d = 1 - p_u - p_m = 0.5 * frac^2 = p_u` exactly, for every input — the
lattice is probability-symmetric between up and down moves. -/
theorem C10_prob_symmetry (S K r sigma T q : ℝ) (n : ℕ) (side : OptionSide)
    (h1 : 0 < step_dt T n)
    (h2 : ¬ |lattice_u sigma (step_dt T n) - lattice_d sigma (step_dt T n)|
      < 1 / 10 ^ 14) :
    (trinomial_single_step S K r sigma T q n side).p_d =
      (trinomial_single_step S K r sigma T q n side).p_u ∧
    (trinomial_single_step S K r sigma T q n side).p_u =
      0.5 * ((Real.exp ((r - q) * step_dt T n) -
          lattice_d sigma (step_dt T n)) /
        (lattice_u sigma (step_dt T n) - lattice_d sigma (step_dt T n))) ^ 2 := by
  simp only [trinomial_single_step]
  rw [if_neg (not_le.mpr h1), if_neg h2]
  dsimp only
  exact ⟨by ring, rfl⟩

/-- Witness for C10 at `sigma = 1`, `T = 2`, `n = 1`, where
`u - d = exp 2 - exp(-2) >= 2 > 1e-14`. -/
theorem C10_prob_symmetry_witness :
    0 < step_dt 2 1 ∧
    ¬ |lattice_u 1 (step_dt 2 1) - lattice_d 1 (step_dt 2 1)| < 1 / 10 ^ 14 ∧
    (trinomial_single_step 100 100 (1 / 20) 1 2 0 1 OptionSide.CE).p_d =
      (trinomial_single_step 100 100 (1 / 20) 1 2 0 1 OptionSide.CE).p_u := by
  have h1 : 0 < step_dt 2 1 := by norm_num [step_dt]
  have hdt : step_dt 2 1 = 2 := by norm_num [step_dt]
  have hu : lattice_u 1 (step_dt 2 1) = Real.exp 2 := by
    rw [lattice_u, hdt]
    norm_num
    rw [show (4 : ℝ) = 2 ^ 2 by norm_num, Real.sqrt_sq (by norm_num : (0:ℝ) ≤ 2)]
  have hd : lattice_d 1 (step_dt 2 1) = 1 / Real.exp 2 := by
    rw [lattice_d, hu]
  have h2 : ¬ |lattice_u 1 (step_dt 2 1) - lattice_d 1 (step_dt 2 1)|
      < 1 / 10 ^ 14 := by
    rw [hu, hd]
    have h3 : (3 : ℝ) ≤ Real.exp 2 := by
      have := Real.add_one_le_exp (2 : ℝ)
      linarith
    have hpos : (0 : ℝ) < Real.exp 2 := Real.exp_pos 2
    have hinv : 1 / Real.exp 2 ≤ 1 := by
      rw [div_le_one hpos]
      linarith
    have hinvpos : (0 : ℝ) < 1 / Real.exp 2 := by positivity
    have hge : (2 : ℝ) ≤ Real.exp 2 - 1 / Real.exp 2 := by linarith
    rw [abs_of_nonneg (by linarith)]
    have hsmall : (1 : ℝ) / 10 ^ 14 < 2 := by norm_num
    intro hcon
    linarith
  exact ⟨h1, h2,
    (C10_prob_symmetry 100 100 (1 / 20) 1 2 0 1 OptionSide.CE h1 h2).1⟩

/-! ## Trading-calendar theorems -/

lemma dateRangeLoop_nil (fuel : ℕ) (s e : Date) (h : ¬ dateLE s e) :
    dateRangeLoop fuel s e = [] := by
  cases fuel with
  | zero => rfl
  | succ f => rw [dateRangeLoop, if_neg h]

/-- Claim C6: for every pair of parse outcomes, the trading-day counter
returns the number of days in the inclusive range `[start, end]` whose
weekday is Monday–Friday and which are not in the holiday set, returns 0
when either date failed to parse, and returns 0 whenever `start > end`
(it is a total function, so malformed input cannot raise). -/
theorem C6_trading_days_count :
    (∀ (hols : List (Option Date)) (startP endP : Option Date),
      count_trading_days_between startP endP hols =
        match startP, endP with
        | some s, some e =>
          ((datesBetween s e).filter
            (fun d => decide (weekday d < 5 ∧ d ∉ hols.filterMap id))).length
        | _, _ => 0) ∧
    (∀ (hols : List (Option Date)) (s e : Date), dateLT e s →
      count_trading_days_between (some s) (some e) hols = 0) := by
  constructor
  · intro hols startP endP
    match startP, endP with
    | none, none => rfl
    | none, some e => rfl
    | some s, none => rfl
    | some s, some e =>
      show count_trading_days_between (some s) (some e) hols =
        ((datesBetween s e).filter
          (fun d => decide (weekday d < 5 ∧ d ∉ hols.filterMap id))).length
      rw [count_trading_days_between]
      by_cases hlt : dateLT e s
      · rw [if_pos hlt, datesBetween,
          dateRangeLoop_nil _ s e ((not_dateLE_iff_dateLT s e).mpr hlt)]
        rfl
      · rw [if_neg hlt, countTradingLoop_eq_filter, datesBetween]
  · intro hols s e h
    rw [count_trading_days_between, if_pos h]

/-- Witness for C6's `start > end` clause at concrete 2025 dates. -/
theorem C6_trading_days_count_witness :
    dateLT ⟨2025, 1, 2⟩ ⟨2025, 1, 5⟩ ∧
    count_trading_days_between (some ⟨2025, 1, 5⟩) (some ⟨2025, 1, 2⟩)
      HOLIDAYS_2025 = 0 :=
  ⟨by decide,
   C6_trading_days_count.2 HOLIDAYS_2025 ⟨2025, 1, 5⟩ ⟨2025, 1, 2⟩ (by decide)⟩

/-- Claim C5 fails as stated: with a configured total trading-day count of
0, a parseable 2025 expiry and a 2025 today, `calculate_time_to_expiry`
returns `(0, "2/0", 2)` — it keeps the computed day count and fraction
string instead of returning the `(0.0, "0/0", 0)` triple the claim
requires for the `total <= 0` case. -/
theorem C5_counterexample :
    calculate_time_to_expiry 0 [] ⟨2025, 1, 1⟩ (some ⟨2025, 1, 2⟩) =
      (0, "2/0", 2) ∧
    calculate_time_to_expiry 0 [] ⟨2025, 1, 1⟩ (some ⟨2025, 1, 2⟩) ≠
      (0, "0/0", 0) := by
  constructor
  · decide
  · decide

/-- Claim C5 (amended): `calculate_time_to_expiry` returns exactly
`(0.0, "0/0", 0)` when the expiry is unparsable or its year is not 2025;
when the configured total trading-day count is `<= 0` it returns `T = 0`
but keeps the actual computed day count and its "days/total" string; and
otherwise it returns `(days_left / total, "days_left/total", days_left)`. -/
theorem C5_amended_time_to_expiry (total : ℤ) (hols : List (Option Date))
    (today : Date) :
    calculate_time_to_expiry total hols today none = (0, "0/0", 0) ∧
    (∀ e : Date, e.year ≠ 2025 →
      calculate_time_to_expiry total hols today (some e) = (0, "0/0", 0)) ∧
    (∀ e : Date, e.year = 2025 → total ≤ 0 →
      calculate_time_to_expiry total hols today (some e) =
        (0,
         toString (count_trading_days_between (some today) (some e) hols) ++
           "/" ++ toString total,
         count_trading_days_between (some today) (some e) hols)) ∧
    (∀ e : Date, e.year = 2025 → 0 < total →
      calculate_time_to_expiry total hols today (some e) =
        ((count_trading_days_between (some today) (some e) hols : ℚ) /
           (total : ℚ),
         toString (count_trading_days_between (some today) (some e) hols) ++
           "/" ++ toString total,
         count_trading_days_between (some today) (some e) hols)) := by
  refine ⟨rfl, ?_, ?_, ?_⟩
  · intro e he
    simp only [calculate_time_to_expiry]
    rw [if_pos he]
  · intro e he ht
    simp only [calculate_time_to_expiry]
    rw [if_neg (not_not_intro he), if_pos ht]
  · intro e he ht
    simp only [calculate_time_to_expiry]
    rw [if_neg (not_not_intro he), if_neg (not_le.mpr ht)]

/-- Witness for C5 (amended) at a non-2025 expiry. -/
theorem C5_amended_time_to_expiry_witness :
    (Date.mk 2024 12 25).year ≠ 2025 ∧
    calculate_time_to_expiry TOTAL_TRADING_DAYS_2025 HOLIDAYS_2025
      ⟨2025, 1, 1⟩ (some ⟨2024, 12, 25⟩) = (0, "0/0", 0) :=
  ⟨by decide,
   (C5_amended_time_to_expiry TOTAL_TRADING_DAYS_2025 HOLIDAYS_2025
      ⟨2025, 1, 1⟩).2.1 ⟨2024, 12, 25⟩ (by decide)⟩

/-! ## Volatility-resolution theorems -/

/-- Claim C4 fails as stated: with a quoted IV of 0 and an empty sibling
chain, neither the quoted nor a nearest substitute is found, the value
falls back to the 1% floor (`iv_decimal = 0.01`), yet the provenance label
stays `REAL` — the defaulted path is not labeled `FAKE`. -/
theorem C4_counterexample :
    (resolve_iv (IVQuote.val 0) 100 [] OptionSide.CE).2 = IVStatus.REAL ∧
    IVStatus.REAL ≠ IVStatus.FAKE ∧
    iv_decimal_of (resolve_iv (IVQuote.val 0) 100 [] OptionSide.CE).1 =
      1 / 100 := by
  have hn : get_nearest_iv 100 [] OptionSide.CE = (none, none) := rfl
  have h1 : resolve_iv (IVQuote.val 0) 100 [] OptionSide.CE =
      (0, IVStatus.REAL) := by
    simp only [resolve_iv, parse_iv_field]
    rw [if_pos (le_refl (0 : ℚ)), hn]
  refine ⟨by rw [h1], by decide, ?_⟩
  rw [h1]
  simp only [iv_decimal_of]
  rw [if_neg (lt_irrefl (0 : ℚ))]

/-- Claim C4 (amended): if the quoted IV is present, parseable and `> 0`
the label is `REAL`; if a nearest-strike substitute is found the label is
`FAKE`; and if neither is found the volatility falls back to the fixed 1%
floor while the label remains `REAL` (the defaulted path is not marked
`FAKE`). -/
theorem C4_amended_iv_resolution (quoted : IVQuote) (strike : ℚ)
    (chain : List Contract) (side : OptionSide) :
    (0 < parse_iv_field quoted →
      resolve_iv quoted strike chain side =
        (parse_iv_field quoted, IVStatus.REAL)) ∧
    (parse_iv_field quoted ≤ 0 →
      ∀ niv stk, get_nearest_iv strike chain side = (some niv, stk) →
        resolve_iv quoted strike chain side = (niv * 100, IVStatus.FAKE)) ∧
    (parse_iv_field quoted ≤ 0 →
      (get_nearest_iv strike chain side).1 = none →
        resolve_iv quoted strike chain side =
          (parse_iv_field quoted, IVStatus.REAL) ∧
        iv_decimal_of (resolve_iv quoted strike chain side).1 = 1 / 100) := by
  refine ⟨?_, ?_, ?_⟩
  · intro h
    simp only [resolve_iv]
    rw [if_neg (not_le.mpr h)]
  · intro h niv stk hn
    simp only [resolve_iv]
    rw [if_pos h, hn]
  · intro h hn
    have hres : resolve_iv quoted strike chain side =
        (parse_iv_field quoted, IVStatus.REAL) := by
      simp only [resolve_iv]
      rw [if_pos h, hn]
    refine ⟨hres, ?_⟩
    rw [hres]
    simp only [iv_decimal_of]
    rw [if_neg (not_lt.mpr h)]

/-- Witness for C4 (amended) at a directly usable quoted IV of 18%. -/
theorem C4_amended_iv_resolution_witness :
    0 < parse_iv_field (IVQuote.val 18) ∧
    resolve_iv (IVQuote.val 18) 100 [] OptionSide.CE = (18, IVStatus.REAL) :=
  ⟨by norm_num [parse_iv_field],
   (C4_amended_iv_resolution (IVQuote.val 18) 100 [] OptionSide.CE).1
     (by norm_num [parse_iv_field])⟩

/-- Claim C8: the nearest-IV search orders siblings by absolute strike
distance with ties broken by original order, returns the first matching
side's quoted IV (as a decimal) with its strike when it is present,
parseable and `> 0`, and returns `(none, none)` when no sibling
qualifies.  In the spec's example — quoted IV 0, siblings at strikes 100
and 105, target 102, only the 105 strike holding a valid 18% IV — the
resolution yields 0.18 labeled `FAKE`, sourced from strike 105. -/
theorem C8_nearest_iv :
    get_nearest_iv 102
      [⟨none, 100, some ⟨IVQuote.val 0, 100⟩, none⟩,
       ⟨none, 105, some ⟨IVQuote.val 18, 100⟩, none⟩] OptionSide.CE =
      (some (18 / 100), some 105) ∧
    resolve_iv (IVQuote.val 0) 102
      [⟨none, 100, some ⟨IVQuote.val 0, 100⟩, none⟩,
       ⟨none, 105, some ⟨IVQuote.val 18, 100⟩, none⟩] OptionSide.CE =
      (18, IVStatus.FAKE) ∧
    iv_decimal_of 18 = 18 / 100 ∧
    get_nearest_iv 102
      [⟨none, 100, some ⟨IVQuote.val 0, 100⟩, none⟩,
       ⟨none, 105, some ⟨IVQuote.unparsable, 100⟩, none⟩] OptionSide.CE =
      (none, none) ∧
    get_nearest_iv 102
      [⟨none, 100, some ⟨IVQuote.val 15, 100⟩, none⟩,
       ⟨none, 104, some ⟨IVQuote.val 20, 100⟩, none⟩] OptionSide.CE =
      (some (15 / 100), some 100) := by
  norm_num [get_nearest_iv, sortByDist, List.foldl, insertByDist,
    nearestIVScan, sideData, resolve_iv, parse_iv_field, iv_decimal_of,
    abs_of_nonneg, abs_of_nonpos]

/-! ## Step-schedule theorems -/

/-- Claim C7: step-schedule selection is total and follows the stated
priority order — the six rules are evaluated top-to-bottom and the first
matching one wins; in particular `sigma = 0.45, T = 0.01` hits rule 1,
not the short-maturity rule, and every `(sigma, T)` pair maps to one of
the six defined lists. -/
theorem C7_step_schedule (IV T : ℚ) (isIndex isAtm : Bool) :
    (0.4 < IV →
      determine_n_steps IV T isIndex isAtm = [10, 20, 50, 100, 200, 400]) ∧
    (IV ≤ 0.4 → 0.2 < IV →
      determine_n_steps IV T isIndex isAtm = [10, 20, 50, 100, 200]) ∧
    (IV ≤ 0.2 → 0.1 < IV →
      determine_n_steps IV T isIndex isAtm = [4, 10, 20, 40, 100]) ∧
    (IV ≤ 0.1 → T < 0.05 →
      determine_n_steps IV T isIndex isAtm = [4, 10, 20, 40, 50]) ∧
    (IV ≤ 0.1 → 0.05 ≤ T → isIndex = true → isAtm = true →
      determine_n_steps IV T isIndex isAtm = [10, 20, 50, 100, 200]) ∧
    (IV ≤ 0.1 → 0.05 ≤ T → ¬ (isIndex = true ∧ isAtm = true) →
      determine_n_steps IV T isIndex isAtm = [4, 10, 20, 40]) ∧
    determine_n_steps IV T isIndex isAtm ∈
      [[10, 20, 50, 100, 200, 400], [10, 20, 50, 100, 200],
       [4, 10, 20, 40, 100], [4, 10, 20, 40, 50], [10, 20, 50, 100, 200],
       [4, 10, 20, 40]] ∧
    determine_n_steps 0.45 0.01 isIndex isAtm = [10, 20, 50, 100, 200, 400] := by
  refine ⟨?_, ?_, ?_, ?_, ?_, ?_, ?_, ?_⟩
  · intro h1
    simp only [determine_n_steps]
    rw [if_pos h1]
  · intro h1 h2
    simp only [determine_n_steps]
    rw [if_neg (not_lt.mpr h1), if_pos h2]
  · intro h1 h2
    simp only [determine_n_steps]
    rw [if_neg (not_lt.mpr (h1.trans (by norm_num))),
      if_neg (not_lt.mpr h1), if_pos h2]
  · intro h1 h2
    simp only [determine_n_steps]
    rw [if_neg (not_lt.mpr (h1.trans (by norm_num))),
      if_neg (not_lt.mpr (h1.trans (by norm_num))),
      if_neg (not_lt.mpr h1), if_pos h2]
  · intro h1 h2 hi ha
    simp only [determine_n_steps]
    rw [if_neg (not_lt.mpr (h1.trans (by norm_num))),
      if_neg (not_lt.mpr (h1.trans (by norm_num))),
      if_neg (not_lt.mpr h1), if_neg (not_lt.mpr h2), if_pos ⟨hi, ha⟩]
  · intro h1 h2 hna
    simp only [determine_n_steps]
    rw [if_neg (not_lt.mpr (h1.trans (by norm_num))),
      if_neg (not_lt.mpr (h1.trans (by norm_num))),
      if_neg (not_lt.mpr h1), if_neg (not_lt.mpr h2), if_neg hna]
  · simp only [determine_n_steps]
    split_ifs <;> simp
  · simp only [determine_n_steps]
    rw [if_pos (by norm_num : (0.4 : ℚ) < 0.45)]

/-- Witness for C7 at the spec's example `sigma = 0.45, T = 0.01`. -/
theorem C7_step_schedule_witness :
    (0.4 : ℚ) < 0.45 ∧
    determine_n_steps 0.45 0.01 true true = [10, 20, 50, 100, 200, 400] :=
  ⟨by norm_num,
   (C7_step_schedule 0.45 0.01 true true).1 (by norm_num)⟩

/-! ## Orchestrator theorems -/

/-- Number of option sides present on a contract record. -/
def presentSideCount (c : Contract) : ℕ :=
  (match c.ce with | some _ => 1 | none => 0) +
  (match c.pe with | some _ => 1 | none => 0)

lemma contractOutputs_length (today : Date) (full : List Contract)
    (c : Contract) :
    (contractOutputs today full c).length = presentSideCount c := by
  rcases c with ⟨ed, k, ce, pe⟩
  cases ce <;> cases pe <;> rfl

lemma presentSideCount_le_two (c : Contract) : presentSideCount c ≤ 2 := by
  rcases c with ⟨ed, k, ce, pe⟩
  cases ce <;> cases pe <;> simp [presentSideCount]

/-- Claim C9 fails as stated: a single contract carrying neither a `"CE"`
nor a `"PE"` side produces an empty output list — cardinality 0, strictly
below the input cardinality 1. -/
theorem C9_counterexample :
    (fetch_and_calculate ⟨2025, 1, 1⟩ [⟨none, 100, none, none⟩]).length = 0 ∧
    ¬ (1 ≤ (fetch_and_calculate ⟨2025, 1, 1⟩
        [⟨none, 100, none, none⟩]).length) := by
  have h : fetch_and_calculate ⟨2025, 1, 1⟩ [⟨none, 100, none, none⟩] = [] :=
    rfl
  rw [h]
  exact ⟨rfl, by norm_num⟩

/-- Claim C9 (amended): for every input list of contract records the
orchestrator produces exactly one priced output per (contract, present
option side) pair — at most two per contract, with no record aborting the
batch; the output cardinality equals the sum of present-side counts, so
it can fall below the input cardinality when a contract carries neither
side. -/
theorem C9_amended_cardinality (today : Date) (chainData : List Contract) :
    (fetch_and_calculate today chainData).length =
      (chainData.map presentSideCount).sum ∧
    (fetch_and_calculate today chainData).length ≤ 2 * chainData.length := by
  have key : ∀ full rest : List Contract,
      (fetchLoop today full rest).length =
        (rest.map presentSideCount).sum := by
    intro full rest
    induction rest with
    | nil => rfl
    | cons c cs ih =>
      rw [fetchLoop, List.length_append, ih, List.map_cons, List.sum_cons,
        contractOutputs_length]
  have hsum : ∀ rest : List Contract,
      (rest.map presentSideCount).sum ≤ 2 * rest.length := by
    intro rest
    induction rest with
    | nil => simp
    | cons c cs ih =>
      rw [List.map_cons, List.sum_cons, List.length_cons]
      have := presentSideCount_le_two c
      omega
  refine ⟨key chainData chainData, ?_⟩
  rw [fetch_and_calculate, key chainData chainData]
  exact hsum chainData

end Fetchdata
